import Mathlib

/-!
Shallow embedding of `src/services/comprehensive_ocr_service.py` from the
chatbot-backend repository, together with theorems settling the frozen claims
about its specification.

External collaborators (the PDF-structure parser, the Tesseract recognition
engine, the `re` regex engine, the SHA-256 digest and base64 transport) are
modelled as abstract, deterministic oracles carried in an environment record,
exactly as the spec's §6 declares them: the embedded code is the Python in
`comprehensive_ocr_service.py`, and the oracles are the capabilities it calls.
Python floats are modelled with exact rationals, Python strings with Lean
strings (the ASCII fragment of the `str` character-class methods is spelled
out below).
-/

namespace ComprehensiveOCR

/-! ### Python string helpers (ASCII fragment of the `str` methods the code uses) -/

/-- Python `str.isspace` for the ASCII whitespace characters. -/
def pyIsSpace (c : Char) : Bool :=
  c = ' ' || c = '\t' || c = '\n' || c = '\r' || c = '\x0b' || c = '\x0c'

/-- Python `str.strip` on a character list: drop whitespace at both ends. -/
def pyStripL (l : List Char) : List Char :=
  ((l.dropWhile pyIsSpace).reverse.dropWhile pyIsSpace).reverse

/-- Python `str.strip`. -/
def pyStrip (s : String) : String :=
  ⟨pyStripL s.toList⟩

/-- Python `str.lower` (ASCII fragment; other characters are left alone). -/
def pyLower (s : String) : String :=
  ⟨s.toList.map Char.toLower⟩

/-- Python `str.isprintable` restricted to the ASCII range. -/
def pyIsPrintable (c : Char) : Bool :=
  32 ≤ c.toNat && c.toNat ≤ 126

/-- Python `str.isalnum` restricted to the ASCII range. -/
def pyIsAlnum (c : Char) : Bool :=
  c.isAlpha || c.isDigit

/-- Does `pat` occur at the head of `s`? (Used to model Python substring scans.) -/
def leadsWith : List Char → List Char → Bool
  | [], _ => true
  | _ :: _, [] => false
  | p :: ps, c :: cs => p = c && leadsWith ps cs

/-- Scanner for non-overlapping substring occurrences: `skip` is the number of
characters still covered by the previous match. -/
def countOccAux (pat : List Char) : Nat → List Char → Nat
  | _, [] => 0
  | 0, c :: cs =>
    if leadsWith pat (c :: cs) then 1 + countOccAux pat (pat.length - 1) cs
    else countOccAux pat 0 cs
  | k + 1, _ :: cs => countOccAux pat k cs

/-- Python `str.count pat`: non-overlapping occurrences, scanning left to right. -/
def countOcc (pat : List Char) (s : List Char) : Nat :=
  if pat = [] then s.length + 1 else countOccAux pat 0 s

/-- Python `pat in s` substring test. -/
def containsSub (pat : List Char) : List Char → Bool
  | [] => pat.isEmpty
  | c :: cs => leadsWith pat (c :: cs) || containsSub pat cs

/-- Helper for Python `len(s.split())`: count maximal non-whitespace runs. -/
def pyWordCountAux : List Char → Bool → Nat
  | [], _ => 0
  | c :: cs, inWord =>
    if pyIsSpace c then pyWordCountAux cs false
    else (if inWord then 0 else 1) + pyWordCountAux cs true

/-- Python `len(s.split())`. -/
def pyWordCount (s : String) : Nat :=
  pyWordCountAux s.toList false

/-! ### Global configuration constants (source lines 120-121) -/

def MAX_FILE_SIZE : Nat := 50 * 1024 * 1024

def MAX_PAGES_PER_REQUEST : Nat := 100

/-! ### The OCR recognition capability, as the abstract oracle of spec §6 -/

/-- Image bytes are opaque to the embedded code. -/
abbrev Bytes := List Nat

/-- One per-token entry of `pytesseract.image_to_data`: token text and integer
confidence (the engine contract of spec §6 puts confidences in [0,100]). -/
abbrev Token := String × Int

/-- The Tesseract capability as the core consumes it: an availability flag,
`Image.open` (reporting pixel dimensions or a decode error), `image_to_data`
(per-config token list, `none` modelling a raised exception) and
`image_to_string` (plain fallback, `none` modelling a raised exception).
Image preprocessing (`preprocess_image_for_ocr`) is a deterministic function of
the image bytes and is folded into the oracle's view of the image. -/
structure OCREngine where
  available : Bool
  loadImage : Bytes → Except String (Nat × Nat)
  imageToData : Bytes → String → String → Option (List Token)
  imageToString : Bytes → String → String → Option String

/-- The five fixed OCR configurations, in source order (lines 282-288). -/
def tesseractConfigs : List String :=
  ["--psm 6 -c tessedit_char_whitelist=0123456789ABCDEFGHIJKLMNOPQRSTUVWXYZabcdefghijklmnopqrstuvwxyz.,!?;:()[]\x7b\x7d\"\x27",
   "--psm 3",
   "--psm 1",
   "--psm 4",
   "--psm 8"]

/-- Language configuration string: `'+'.join(languages) if languages else 'eng'`. -/
def langConfig (languages : List String) : String :=
  if languages = [] then "eng" else String.intercalate "+" languages

/-- Per-configuration scoring (source lines 310-321): keep tokens whose
confidence is strictly greater than 30, join the survivors with single spaces
and strip, and score the attempt as the mean surviving confidence divided
by 100.  `none` when no token survives. -/
def attemptOfTokens (toks : List Token) : Option (String × ℚ) :=
  let survivors := toks.filter (fun t => 30 < t.2)
  if survivors = [] then none
  else some (pyStrip (String.intercalate " " (survivors.map Prod.fst)),
             ((survivors.map (fun t => ((t.2 : ℚ)))).sum / (survivors.length : ℚ)) / 100)

/-- One step of the best-attempt tracking loop (source lines 323-326): a
scored attempt replaces the best so far only on strictly greater confidence;
a failed configuration (`none`) leaves the best unchanged. -/
def searchStep (best : String × ℚ) (a : Option (String × ℚ)) : String × ℚ :=
  match a with
  | none => best
  | some p => if best.2 < p.2 then p else best

/-- The configuration-search loop, starting from `best_text = ""`,
`best_confidence = 0.0`. -/
def searchFold (l : List (Option (String × ℚ))) : String × ℚ :=
  l.foldl searchStep ("", 0)

/-- The scored attempts of the five configurations, in order. -/
def tessAttempts (eng : OCREngine) (image_data : Bytes) (languages : List String) :
    List (Option (String × ℚ)) :=
  tesseractConfigs.map
    (fun c => (eng.imageToData image_data c (langConfig languages)).bind attemptOfTokens)

/-- The result dictionary of `extract_text_with_tesseract`.  The
`processing_time` entry of the source is pure timing measurement and is
dropped unread by every caller; it is fixed to 0 here. -/
structure OCRDict where
  text : String
  confidence : ℚ
  page : Nat
  bbox : List ℚ
  chunk_type : String
  language : String
deriving Repr, DecidableEq

/-- The short-circuit result when the recognition capability is unavailable
(source lines 263-272). -/
def unavailableResult (page_num : Nat) : OCRDict :=
  { text := "[Tesseract OCR not available - install Tesseract OCR engine]"
    confidence := 0
    page := page_num
    bbox := [0, 0, 100, 100]
    chunk_type := "ocr_unavailable"
    language := "unknown" }

/-- `extract_text_with_tesseract` (source lines 261-368). -/
def extract_text_with_tesseract (eng : OCREngine) (image_data : Bytes)
    (page_num : Nat) (languages : List String) : OCRDict :=
  if eng.available = false then unavailableResult page_num
  else
    match eng.loadImage image_data with
    | Except.error e =>
        { text := "[OCR error: " ++ e ++ "]"
          confidence := 1/10
          page := page_num
          bbox := [0, 0, 100, 100]
          chunk_type := "ocr_error"
          language := "unknown" }
    | Except.ok (w, h) =>
        let lang := langConfig languages
        let best := searchFold (tessAttempts eng image_data languages)
        let best2 :=
          if best.1 = "" then
            match eng.imageToString image_data "--psm 6" lang with
            | some t => (pyStrip t, (1 : ℚ)/2)
            | none => ("[OCR processing failed for image on page " ++ toString page_num ++ "]",
                       (1 : ℚ)/10)
          else best
        { text := best2.1
          confidence := best2.2
          page := page_num
          bbox := [0, 0, (w : ℚ), (h : ℚ)]
          chunk_type := "ocr_text"
          language := lang }

/-! ### Quality scorer (source lines 374-421) -/

/-- `calculate_quality_score_comprehensive`.  The four `re.search` pattern
probes are an external regex capability; `patternMatches` is the number of the
four fixed patterns that match the text (source line 412). -/
def calculate_quality_score_comprehensive (patternMatches : Nat) (text : String) : ℚ :=
  let cs := text.toList
  if cs = [] ∨ (pyStripL cs).length < 5 then 0
  else
    let alphanumeric : Nat := cs.countP pyIsAlnum
    let printable : Nat := cs.countP pyIsPrintable
    let total : Nat := cs.length
    if total = 0 then 0
    else
      let score : ℚ := ((printable : ℚ) / (total : ℚ)) * 0.3
      let anRat : ℚ := (alphanumeric : ℚ) / (total : ℚ)
      let score := score + (if anRat ≥ 0.4 then (0.4 : ℚ) else anRat)
      let score := score + (if 500 < cs.length then (0.1 : ℚ)
                            else if 100 < cs.length then (0.05 : ℚ) else 0)
      let score := score + (if 3 ≤ patternMatches then (0.2 : ℚ) else 0)
      let wsRat : ℚ := ((cs.countP pyIsSpace : Nat) : ℚ) / (total : ℚ)
      let score := score - (if wsRat > 0.3 then (0.1 : ℚ) else 0)
      min 1 (max 0 score)

/-! ### Language detector (source lines 423-447) -/

def english_words : List String :=
  ["the", "and", "or", "of", "to", "in", "for", "with", "on", "at", "by", "from",
   "this", "that", "these", "those"]

def hindi_words : List String :=
  ["है", "हैं", "था", "थे", "की", "के", "को", "पर", "से", "में", "का", "कि"]

def spanish_words : List String :=
  ["el", "la", "de", "que", "y", "a", "en", "un", "es", "se", "no", "te", "lo",
   "le", "da", "su", "por", "son", "con", "para"]

/-- `sum(text_lower.count(word) for word in words)`. -/
def countWordList (words : List String) (textLower : List Char) : Nat :=
  (words.map (fun w => countOcc w.toList textLower)).sum

/-- `detect_languages_comprehensive`. -/
def detect_languages_comprehensive (text : String) : List String :=
  let tl := (pyLower text).toList
  let english_count := countWordList english_words tl
  let hindi_count := countWordList hindi_words tl
  let spanish_count := countWordList spanish_words tl
  let languages :=
    (if english_count > 15 then ["en"] else []) ++
    (if hindi_count > 5 then ["hi"] else []) ++
    (if spanish_count > 10 then ["es"] else [])
  if languages = [] then ["unknown"] else languages

/-! ### Page decomposition (source lines 159-216) -/

/-- One text span of the PyMuPDF text dictionary. -/
structure Span where
  text : String
deriving Repr, DecidableEq

/-- One text line: its spans and its bounding box in page coordinates. -/
structure Line where
  spans : List Span
  bbox : List ℚ
deriving Repr, DecidableEq

/-- One block of the text dictionary; image blocks carry no `lines` key. -/
structure Block where
  lines : Option (List Line)
deriving Repr, DecidableEq

/-- One embedded image surviving extraction (source lines 175-190): its pixel
data (base64 transport elided: the bytes are carried directly), the
page-coordinate bounding box `img[1:5]`, its index, and pixel dimensions. -/
structure RawImage where
  data : Bytes
  bbox : List ℚ
  index : Nat
  width : Nat
  height : Nat
deriving Repr, DecidableEq

/-- What the external PDF-parsing capability yields for one page that
decomposes successfully.  Images whose colour configuration is unsupported are
skipped by the per-image loop upstream and never appear here. -/
structure ParsedPage where
  blocks : List Block
  images : List RawImage
  width : ℚ
  height : ℚ
deriving Repr, DecidableEq

/-- One entry of `pages_data` (source lines 192-210). -/
structure PageData where
  page_num : Nat
  blocks : List Block
  images : List RawImage
  width : ℚ
  height : ℚ
  error : Option String
deriving Repr, DecidableEq

/-- Work events, used to state in which order the pipeline touches the
document: one `decomp` per page decomposed, one `ocr` per image sent to the
recognition engine. -/
inductive Ev where
  | decomp (page : Nat)
  | ocr (page : Nat) (index : Nat)
deriving Repr, DecidableEq

/-- `extract_text_from_pdf_comprehensive`, instrumented with work events.  An
opened document is the ordered list of its pages' parse outcomes; a page whose
decomposition raises is replaced by an empty error-marked entry
(source lines 200-210). -/
def extract_text_from_pdf_T : Nat → List (Except String ParsedPage) → List Ev × List PageData
  | _, [] => ([], [])
  | i, p :: rest =>
    let pd : PageData :=
      match p with
      | Except.ok pg =>
          { page_num := i + 1, blocks := pg.blocks, images := pg.images,
            width := pg.width, height := pg.height, error := none }
      | Except.error e =>
          { page_num := i + 1, blocks := [], images := [], width := 0, height := 0,
            error := some e }
    let rest' := extract_text_from_pdf_T (i + 1) rest
    (Ev.decomp i :: rest'.1, pd :: rest'.2)

/-- `extract_text_from_pdf_comprehensive` (events dropped). -/
def extract_text_from_pdf_comprehensive (parsed : List (Except String ParsedPage)) :
    List PageData :=
  (extract_text_from_pdf_T 0 parsed).2

/-! ### Chunk assembly (source lines 563-671) -/

/-- The `TextChunk` pydantic model (source lines 80-86). -/
structure TextChunk where
  text : String
  confidence : ℚ
  page : Nat
  bbox : List ℚ
  chunk_type : String
  language : Option String := none
deriving Repr, DecidableEq

/-- Concatenation of a line's span texts (source lines 598-600). -/
def lineText (line : Line) : String :=
  line.spans.foldl (fun acc s => acc ++ s.text) ""

/-- Processing one text line (source lines 601-615): when the stripped line is
non-empty, extend the page text and append a `text` chunk of confidence 0.95. -/
def foldLine (preserve_layout : Bool) (page_num : Nat)
    (acc : String × List TextChunk) (line : Line) : String × List TextChunk :=
  let lt := lineText line
  if pyStrip lt ≠ "" then
    (acc.1 ++ lt ++ (if preserve_layout then "\n" else " "),
     acc.2 ++ [{ text := pyStrip lt, confidence := 0.95, page := page_num,
                 bbox := line.bbox, chunk_type := "text", language := none }])
  else acc

/-- Processing one block: only blocks with a `lines` key contribute. -/
def foldBlock (preserve_layout : Bool) (page_num : Nat)
    (acc : String × List TextChunk) (b : Block) : String × List TextChunk :=
  match b.lines with
  | none => acc
  | some ls => ls.foldl (foldLine preserve_layout page_num) acc

/-- Python `set.add`, with set iteration modelled as insertion order (which is
what a single CPython process run produces for a fixed insertion sequence). -/
def insertLang (l : List String) (s : String) : List String :=
  if s ∈ l then l else l ++ [s]

/-- Accumulator of the per-page image loop. -/
structure ImgState where
  page_text : String
  chunks : List TextChunk
  langs : List String
  trace : List Ev
deriving Repr

/-- Processing one embedded image (source lines 620-643): run OCR, and when
the result text strips non-empty, extend the page text, append a chunk
carrying the OCR result's text/confidence/bbox/type, and record its language. -/
def foldImage (eng : OCREngine) (languages : List String) (preserve_layout : Bool)
    (page_num : Nat) (st : ImgState) (img : RawImage) : ImgState :=
  let r := extract_text_with_tesseract eng img.data page_num languages
  let tr := st.trace ++ [Ev.ocr page_num img.index]
  if pyStrip r.text ≠ "" then
    { page_text := st.page_text ++
        (if preserve_layout then "\n" ++ r.text ++ "\n" else r.text ++ " "),
      chunks := st.chunks ++
        [{ text := r.text, confidence := r.confidence, page := page_num,
           bbox := r.bbox, chunk_type := r.chunk_type, language := some r.language }],
      langs := if r.language ≠ "" then insertLang st.langs r.language else st.langs,
      trace := tr }
  else { st with trace := tr }

/-- Document-level accumulator of `process_pdf_comprehensive`. -/
structure DocState where
  all_text : String
  all_chunks : List TextChunk
  has_images : Bool
  extracted_languages : List String
deriving Repr, DecidableEq

/-- Processing one page of `pages_data` (source lines 585-648).  Pages with an
error marker are skipped (`continue`); otherwise native text blocks are
processed first, then (when requested and present) the embedded images, and
finally the page header plus page text are appended to the document text. -/
def processPage (eng : OCREngine) (extract_images : Bool) (languages : List String)
    (preserve_layout : Bool) (st : DocState × List Ev) (pd : PageData) :
    DocState × List Ev :=
  match pd.error with
  | some _ => st
  | none =>
    let bacc := pd.blocks.foldl (foldBlock preserve_layout pd.page_num)
                  ("", st.1.all_chunks)
    let doImgs := extract_images && !pd.images.isEmpty
    let ist : ImgState :=
      if doImgs then
        pd.images.foldl (foldImage eng languages preserve_layout pd.page_num)
          { page_text := bacc.1, chunks := bacc.2,
            langs := st.1.extracted_languages, trace := st.2 }
      else
        { page_text := bacc.1, chunks := bacc.2,
          langs := st.1.extracted_languages, trace := st.2 }
    ({ all_text := st.1.all_text ++ "\n--- PAGE " ++ toString pd.page_num ++ " ---\n" ++
         ist.page_text ++ "\n",
       all_chunks := ist.chunks,
       has_images := st.1.has_images || doImgs,
       extracted_languages := ist.langs }, ist.trace)

/-- Errors escaping the processors: an `HTTPException` (re-raised by the
endpoint) or a generic exception (turned into a failure response). -/
inductive PipeErr where
  | http (code : Nat) (detail : String)
  | exn (msg : String)
deriving Repr, DecidableEq

/-- The dictionary `process_pdf_comprehensive` / `process_image_comprehensive`
return (source lines 656-667). -/
structure PDFResult where
  text : String
  chunks : List TextChunk
  pages : Nat
  quality_score : ℚ
  word_count : Nat
  character_count : Nat
  has_tables : Bool
  has_images : Bool
  language : String
  extracted_languages : List String
deriving Repr, DecidableEq

/-- The full environment of external capabilities the endpoint consumes:
the recognition engine, the installation-check failure message, SHA-256
hashing, the `re` pattern probe count for the quality scorer, and the PDF
parsing capability (`fitz.open` plus per-page decomposition outcomes). -/
structure ExtractEnv where
  engine : OCREngine
  tessMsg : String
  hash : Bytes → String
  patternCount : String → Nat
  parsePdf : Bytes → Except String (List (Except String ParsedPage))

/-- `process_pdf_comprehensive` (source lines 563-671) over an opened
document, instrumented with work events.  The page-count ceiling is checked
right after `extract_text_from_pdf_comprehensive` returns (source
lines 574-577). -/
def process_pdf_T (env : ExtractEnv) (parsed : List (Except String ParsedPage))
    (extract_tables extract_images : Bool) (confidence_threshold : ℚ)
    (languages : List String) (preserve_layout : Bool) :
    List Ev × Except PipeErr PDFResult :=
  let decomposed := extract_text_from_pdf_T 0 parsed
  let pages_data := decomposed.2
  if pages_data.length > MAX_PAGES_PER_REQUEST then
    (decomposed.1, Except.error (PipeErr.http 413 "Too many pages (max 100)"))
  else
    let folded := pages_data.foldl
      (processPage env.engine extract_images languages preserve_layout)
      ({ all_text := "", all_chunks := [], has_images := false,
         extracted_languages := [] }, decomposed.1)
    let st := folded.1
    (folded.2, Except.ok
      { text := st.all_text
        chunks := st.all_chunks
        pages := pages_data.length
        quality_score := calculate_quality_score_comprehensive
          (env.patternCount st.all_text) st.all_text
        word_count := pyWordCount st.all_text
        character_count := st.all_text.length
        has_tables := false
        has_images := st.has_images
        language := (detect_languages_comprehensive st.all_text).headD "unknown"
        extracted_languages := st.extracted_languages })

/-- `process_pdf_comprehensive` (events dropped). -/
def process_pdf_comprehensive (env : ExtractEnv) (parsed : List (Except String ParsedPage))
    (extract_tables extract_images : Bool) (confidence_threshold : ℚ)
    (languages : List String) (preserve_layout : Bool) : Except PipeErr PDFResult :=
  (process_pdf_T env parsed extract_tables extract_images confidence_threshold
    languages preserve_layout).2

/-- `process_pdf_comprehensive` from raw bytes: a document that fails to open
raises, which the endpoint's generic handler turns into a failure response. -/
def process_pdf_full (env : ExtractEnv) (pdf_data : Bytes)
    (extract_tables extract_images : Bool) (confidence_threshold : ℚ)
    (languages : List String) (preserve_layout : Bool) : Except PipeErr PDFResult :=
  match env.parsePdf pdf_data with
  | Except.error e => Except.error (PipeErr.exn e)
  | Except.ok parsed =>
      process_pdf_comprehensive env parsed extract_tables extract_images
        confidence_threshold languages preserve_layout

/-- `process_image_comprehensive` (source lines 673-714). -/
def process_image_comprehensive (env : ExtractEnv) (image_data : Bytes)
    (languages : List String) : Except PipeErr PDFResult :=
  let r := extract_text_with_tesseract env.engine image_data 1 languages
  Except.ok
    { text := r.text
      chunks := [{ text := r.text, confidence := r.confidence, page := 1,
                   bbox := r.bbox, chunk_type := r.chunk_type,
                   language := some r.language }]
      pages := 1
      quality_score := calculate_quality_score_comprehensive
        (env.patternCount r.text) r.text
      word_count := pyWordCount r.text
      character_count := r.text.length
      has_tables := false
      has_images := true
      language := (detect_languages_comprehensive r.text).headD "unknown"
      extracted_languages := if r.language ≠ "" then [r.language] else [] }

/-! ### The extraction endpoint (source lines 468-561) -/

/-- An `HTTPException`: status code and detail. -/
abbrev HTTPErr := Nat × String

/-- The `OCRResponse` pydantic model (source lines 88-104). -/
structure OCRResponse where
  success : Bool
  text : String
  chunks : List TextChunk
  pages : Nat
  processing_time : ℚ
  method : String
  quality_score : ℚ
  word_count : Nat
  character_count : Nat
  has_tables : Bool
  has_images : Bool
  language : String
  extracted_languages : List String
  file_hash : String
  error : Option String := none
  warnings : List String := []
deriving Repr, DecidableEq

/-- `check_tesseract_installation` succeeds exactly when the recognition
capability is available (source lines 125-140). -/
def tessAvailable (env : ExtractEnv) : Bool :=
  env.engine.available

/-- The two response-construction sites of the endpoint (source lines 520-536
and 544-561), parameterised by the elapsed processing time. -/
def mkResponse (result : Except PipeErr PDFResult) (warnings : List String)
    (file_hash : String) (dt : ℚ) : Except HTTPErr OCRResponse :=
  match result with
  | Except.ok r =>
      Except.ok
        { success := true, text := r.text, chunks := r.chunks, pages := r.pages,
          processing_time := dt, method := "comprehensive-tesseract-ocr",
          quality_score := r.quality_score, word_count := r.word_count,
          character_count := r.character_count, has_tables := r.has_tables,
          has_images := r.has_images, language := r.language,
          extracted_languages := r.extracted_languages, file_hash := file_hash,
          error := none, warnings := warnings }
  | Except.error (PipeErr.http c d) => Except.error (c, d)
  | Except.error (PipeErr.exn m) =>
      Except.ok
        { success := false, text := "", chunks := [], pages := 0,
          processing_time := dt, method := "comprehensive-tesseract-ocr",
          quality_score := 0, word_count := 0, character_count := 0,
          has_tables := false, has_images := false, language := "unknown",
          extracted_languages := [], file_hash := "", error := some m,
          warnings := warnings }

/-- The `/ocr/extract` endpoint `extract_text` (source lines 468-561).
`t_start` and `t_end` model the two `time.time()` readings; they feed only the
`processing_time` field. -/
def extract_text (env : ExtractEnv) (file_data : Bytes) (content_type : String)
    (extract_tables extract_images : Bool) (confidence_threshold : ℚ)
    (languages : String) (preserve_layout : Bool) (t_start t_end : ℚ) :
    Except HTTPErr OCRResponse :=
  if file_data = [] then Except.error (400, "Empty file")
  else if file_data.length > MAX_FILE_SIZE then
    Except.error (413, "File too large (max 50MB)")
  else
    let file_hash := env.hash file_data
    let lang_list0 := ((languages.splitOn ",").map pyStrip).filter (fun s => s ≠ "")
    let lang_list := if lang_list0 = [] then ["eng"] else lang_list0
    let warnings :=
      if tessAvailable env then []
      else ["Tesseract OCR not available: " ++ env.tessMsg]
    let result :=
      if containsSub "pdf".toList (pyLower content_type).toList then
        process_pdf_full env file_data extract_tables extract_images
          confidence_threshold lang_list preserve_layout
      else if containsSub "image".toList (pyLower content_type).toList then
        process_image_comprehensive env file_data lang_list
      else Except.error (PipeErr.http 400 "Unsupported file type")
    mkResponse result warnings file_hash (t_end - t_start)

/-- Erase the timing measurement of a response, for comparing runs. -/
def scrubProcessingTime : Except HTTPErr OCRResponse → Except HTTPErr OCRResponse
  | Except.error e => Except.error e
  | Except.ok r => Except.ok { r with processing_time := 0 }

/-! ### Specification-side chunk shape (for the ordering claims) -/

/-- The chunk a native text line contributes, when its stripped text is
non-empty. -/
def lineChunk? (page_num : Nat) (line : Line) : Option TextChunk :=
  if pyStrip (lineText line) ≠ "" then
    some { text := pyStrip (lineText line), confidence := 0.95, page := page_num,
           bbox := line.bbox, chunk_type := "text", language := none }
  else none

/-- The chunk an embedded image contributes, when its OCR result text strips
non-empty. -/
def imageChunk? (eng : OCREngine) (languages : List String) (page_num : Nat)
    (img : RawImage) : Option TextChunk :=
  let r := extract_text_with_tesseract eng img.data page_num languages
  if pyStrip r.text ≠ "" then
    some { text := r.text, confidence := r.confidence, page := page_num,
           bbox := r.bbox, chunk_type := r.chunk_type, language := some r.language }
  else none

/-- Spec-side description of one page's chunk contribution: the native text
chunks in block/line order, followed by the OCR chunks in image-index order;
error-marked pages contribute nothing. -/
def pageChunksSpec (eng : OCREngine) (extract_images : Bool) (languages : List String)
    (pd : PageData) : List TextChunk :=
  match pd.error with
  | some _ => []
  | none =>
    (pd.blocks.map (fun b => (b.lines.getD []).filterMap (lineChunk? pd.page_num))).flatten ++
    (if extract_images && !pd.images.isEmpty then
       pd.images.filterMap (imageChunk? eng languages pd.page_num)
     else [])

/-- First-argmax specification of the configuration search: either no
configuration produced a scored attempt and the initial `("", 0)` pair stands,
or the winner is a scored attempt that strictly beats every earlier attempt
and is not beaten by any later one — i.e. on ties the earlier configuration in
the fixed order is kept. -/
def IsFirstBest (attempts : List (Option (String × ℚ))) (best : String × ℚ) : Prop :=
  (attempts.filterMap id = [] ∧ best = ("", 0)) ∨
  (∃ l1 p l2, attempts = l1 ++ some p :: l2 ∧ best = p ∧
    (∀ q ∈ l1.filterMap id, q.2 < p.2) ∧ (∀ q ∈ l2.filterMap id, q.2 ≤ p.2))

/-! ### Concrete fixtures for witnesses and counterexamples -/

/-- A working engine: decodes every image as 5×7 pixels and recognises the
same two tokens under every configuration. -/
def engineA : OCREngine :=
  { available := true
    loadImage := fun _ => Except.ok (5, 7)
    imageToData := fun _ _ _ => some [("hello", 80), ("world", 20)]
    imageToString := fun _ _ _ => some "plain text" }

/-- An engine whose recognition capability is unavailable. -/
def engineU : OCREngine :=
  { available := false
    loadImage := fun _ => Except.ok (50, 60)
    imageToData := fun _ _ _ => none
    imageToString := fun _ _ _ => none }

/-- A 50×60 embedded image with a non-trivial page-coordinate bounding box. -/
def img5060 : RawImage :=
  { data := [1, 2, 3], bbox := [10, 20, 30, 40], index := 0, width := 50, height := 60 }

/-- Environment around the working engine. -/
def envA : ExtractEnv :=
  { engine := engineA, tessMsg := "Tesseract not configured",
    hash := fun _ => "deadbeef", patternCount := fun _ => 0,
    parsePdf := fun _ => Except.ok [] }

/-- Environment around the unavailable engine, whose only document is a single
page holding one embedded image and no text blocks. -/
def envU : ExtractEnv :=
  { engine := engineU, tessMsg := "Tesseract not configured",
    hash := fun _ => "deadbeef", patternCount := fun _ => 0,
    parsePdf := fun _ =>
      Except.ok [Except.ok { blocks := [], images := [img5060], width := 100, height := 200 }] }

/-- A one-page document whose only line is a single whitespace span. -/
def parsedWsLine : List (Except String ParsedPage) :=
  [Except.ok
    { blocks := [{ lines := some [{ spans := [{ text := " " }], bbox := [0, 0, 10, 10] }] }],
      images := [], width := 600, height := 800 }]

/-- A one-page document with one line of real text and no images. -/
def parsedHello : List (Except String ParsedPage) :=
  [Except.ok
    { blocks := [{ lines := some [{ spans := [{ text := "Hello" }], bbox := [0, 0, 10, 10] }] }],
      images := [], width := 600, height := 800 }]

/-- A 101-page document of empty pages. -/
def parsed101 : List (Except String ParsedPage) :=
  List.replicate 101 (Except.ok { blocks := [], images := [], width := 10, height := 10 })

/-! ### Lemmas on the configuration search -/

/-- Characterisation of the best-attempt fold from an arbitrary starting
pair: either nothing ever strictly beat the start, or the result is the
earliest attempt that strictly beats the start and every earlier attempt and
is not beaten later. -/
lemma searchFold_aux (l : List (Option (String × ℚ))) : ∀ init : String × ℚ,
    (l.foldl searchStep init = init ∧ ∀ q ∈ l.filterMap id, q.2 ≤ init.2) ∨
    (∃ l1 p l2, l = l1 ++ some p :: l2 ∧ l.foldl searchStep init = p ∧ init.2 < p.2 ∧
      (∀ q ∈ l1.filterMap id, q.2 < p.2) ∧ (∀ q ∈ l2.filterMap id, q.2 ≤ p.2)) := by
  induction l with
  | nil => intro init; left; simp
  | cons a l ih =>
    intro init
    match a with
    | none =>
      rcases ih init with ⟨h1, h2⟩ | ⟨l1, p, l2, hsplit, h2, h3, h4, h5⟩
      · left
        refine ⟨by simpa [searchStep] using h1, ?_⟩
        simpa using h2
      · right
        exact ⟨none :: l1, p, l2, by rw [hsplit, List.cons_append], by simpa [searchStep] using h2, h3,
               by simpa using h4, h5⟩
    | some b =>
      by_cases hb : init.2 < b.2
      · have hstep : searchStep init (some b) = b := by simp [searchStep, hb]
        rcases ih b with ⟨h1, h2⟩ | ⟨l1, p, l2, hsplit, h2, h3, h4, h5⟩
        · right
          refine ⟨[], b, l, by simp, ?_, hb, by simp, h2⟩
          simpa [hstep] using h1
        · right
          refine ⟨some b :: l1, p, l2, by rw [hsplit, List.cons_append], ?_, lt_trans hb h3, ?_, h5⟩
          · simpa [hstep] using h2
          · intro q hq
            rcases (by simpa using hq : q = b ∨ q ∈ l1.filterMap id) with rfl | hq'
            · exact h3
            · exact h4 q hq'
      · have hstep : searchStep init (some b) = init := by simp [searchStep, hb]
        rcases ih init with ⟨h1, h2⟩ | ⟨l1, p, l2, hsplit, h2, h3, h4, h5⟩
        · left
          refine ⟨by simpa [hstep] using h1, ?_⟩
          intro q hq
          rcases (by simpa using hq : q = b ∨ q ∈ l.filterMap id) with rfl | hq'
          · exact not_lt.mp hb
          · exact h2 q hq'
        · right
          refine ⟨some b :: l1, p, l2, by rw [hsplit, List.cons_append], by simpa [hstep] using h2, h3, ?_, h5⟩
          intro q hq
          rcases (by simpa using hq : q = b ∨ q ∈ l1.filterMap id) with rfl | hq'
          · exact lt_of_le_of_lt (not_lt.mp hb) h3
          · exact h4 q hq'

/-- When every scored attempt has positive confidence, the loop implements
the first-argmax selection. -/
lemma searchFold_first (l : List (Option (String × ℚ)))
    (hpos : ∀ q ∈ l.filterMap id, 0 < q.2) : IsFirstBest l (searchFold l) := by
  rcases searchFold_aux l ("", 0) with ⟨h1, h2⟩ | ⟨l1, p, l2, hsplit, h2, _h3, h4, h5⟩
  · left
    refine ⟨?_, h1⟩
    rcases hl : l.filterMap id with _ | ⟨q, qs⟩
    · rfl
    · exfalso
      have hq : q ∈ l.filterMap id := by rw [hl]; exact List.mem_cons_self q qs
      exact absurd (h2 q hq) (not_le.mpr (hpos q hq))
  · right
    exact ⟨l1, p, l2, hsplit, h2, h4, h5⟩

/-- Every scored attempt has strictly positive confidence: each surviving
token's confidence exceeds 30, so the mean exceeds 30 and the scaled mean
exceeds 0.3 greater 0. -/
lemma attemptOfTokens_pos {toks : List Token} {p : String × ℚ}
    (h : attemptOfTokens toks = some p) : 0 < p.2 := by
  unfold attemptOfTokens at h
  by_cases hemp : toks.filter (fun t => 30 < t.2) = []
  · simp [hemp] at h
  · simp only [hemp, if_false] at h
    have hinj := Option.some.inj h
    have hp2 : p.2 = ((toks.filter (fun t => 30 < t.2)).map
        (fun t => ((t.2 : ℚ)))).sum / ((toks.filter (fun t => 30 < t.2)).length : ℚ) / 100 := by
      rw [← hinj]
    rw [hp2]
    have hlen : 0 < ((toks.filter (fun t => 30 < t.2)).length : ℚ) := by
      have := List.length_pos.mpr hemp
      exact_mod_cast this
    have hsum : 0 < ((toks.filter (fun t => 30 < t.2)).map (fun t => ((t.2 : ℚ)))).sum := by
      apply List.sum_pos
      · intro x hx
        rcases List.mem_map.mp hx with ⟨t, ht, rfl⟩
        have h30 : (30 : ℤ) < t.2 := by
          have := (List.mem_filter.mp ht).2
          exact_mod_cast of_decide_eq_true this
        have : (30 : ℚ) < (t.2 : ℚ) := by exact_mod_cast h30
        linarith
      · simpa using hemp
    positivity

/-- Every scored attempt of the engine-produced attempt list has positive
confidence. -/
lemma tessAttempts_pos (eng : OCREngine) (image_data : Bytes) (languages : List String) :
    ∀ q ∈ (tessAttempts eng image_data languages).filterMap id, 0 < q.2 := by
  intro q hq
  rcases List.mem_filterMap.mp hq with ⟨a, ha, hqa⟩
  rcases List.mem_map.mp ha with ⟨c, _hc, hmap⟩
  simp only [id] at hqa
  subst hqa
  rcases Option.bind_eq_some.mp hmap with ⟨toks, _htoks, hatt⟩
  exact attemptOfTokens_pos hatt

/-- Under the engine contract (token confidences at most 100), every scored
attempt's confidence is at most 1. -/
lemma attemptOfTokens_le_one {toks : List Token} {p : String × ℚ}
    (hb : ∀ t ∈ toks, t.2 ≤ 100) (h : attemptOfTokens toks = some p) : p.2 ≤ 1 := by
  unfold attemptOfTokens at h
  by_cases hemp : toks.filter (fun t => 30 < t.2) = []
  · simp [hemp] at h
  · simp only [hemp, if_false] at h
    have hinj := Option.some.inj h
    have hp2 : p.2 = ((toks.filter (fun t => 30 < t.2)).map
        (fun t => ((t.2 : ℚ)))).sum / ((toks.filter (fun t => 30 < t.2)).length : ℚ) / 100 := by
      rw [← hinj]
    rw [hp2]
    set s := toks.filter (fun t => 30 < t.2) with hs
    have hlen : 0 < ((s.length : ℚ)) := by
      have := List.length_pos.mpr hemp
      exact_mod_cast this
    have hsum : (s.map (fun t => ((t.2 : ℚ)))).sum ≤ (s.length : ℚ) * 100 := by
      have hsmul := List.sum_le_card_nsmul (s.map (fun t => ((t.2 : ℚ)))) 100 ?_
      · rw [List.length_map] at hsmul
        simpa [nsmul_eq_mul] using hsmul
      · intro x hx
        rcases List.mem_map.mp hx with ⟨t, ht, rfl⟩
        have ht' : t ∈ toks := List.mem_filter.mp (hs ▸ ht) |>.1
        have := hb t ht'
        exact_mod_cast this
    rw [div_div, div_le_one (by positivity)]
    linarith

/-! ### C1: the configuration search selects the first strict maximum -/

/-- C1: for every engine state, image and language set, the configuration
search scores the five fixed configurations in order — per configuration
keeping only tokens with confidence strictly greater than 30, joining the
survivors with single spaces, and scoring by mean surviving confidence divided
by 100 (`attemptOfTokens`) — and the tracking loop keeps an attempt only when
its confidence is strictly greater than the best so far, so the selected
winner is the earliest attempt of maximal confidence (`IsFirstBest`); when the
winner's text is non-empty, `extract_text_with_tesseract` returns exactly the
winner's text and confidence as an `ocr_text` result. -/
theorem C1_config_search (eng : OCREngine) (image_data : Bytes) (page_num : Nat)
    (languages : List String) (w h : Nat)
    (havail : eng.available = true)
    (hload : eng.loadImage image_data = Except.ok (w, h)) :
    tesseractConfigs.length = 5 ∧
    IsFirstBest (tessAttempts eng image_data languages)
      (searchFold (tessAttempts eng image_data languages)) ∧
    ((searchFold (tessAttempts eng image_data languages)).1 ≠ "" →
       (extract_text_with_tesseract eng image_data page_num languages).text =
         (searchFold (tessAttempts eng image_data languages)).1 ∧
       (extract_text_with_tesseract eng image_data page_num languages).confidence =
         (searchFold (tessAttempts eng image_data languages)).2 ∧
       (extract_text_with_tesseract eng image_data page_num languages).chunk_type =
         "ocr_text") := by
  refine ⟨rfl, searchFold_first _ (tessAttempts_pos eng image_data languages), ?_⟩
  intro hne
  unfold extract_text_with_tesseract
  rw [havail]
  simp only [Bool.true_eq_false, if_false, hload]
  simp [hne]

/-- Witness for C1 at a concrete engine: the `--psm 3` attempt (text
`"hello"`, confidence 0.8) wins and is returned. -/
theorem C1_witness :
    (extract_text_with_tesseract engineA [] 1 ["eng"]).text =
      (searchFold (tessAttempts engineA [] ["eng"])).1 ∧
    (extract_text_with_tesseract engineA [] 1 ["eng"]).confidence =
      (searchFold (tessAttempts engineA [] ["eng"])).2 ∧
    (extract_text_with_tesseract engineA [] 1 ["eng"]).chunk_type = "ocr_text" :=
  (C1_config_search engineA [] 1 ["eng"] 5 7 rfl rfl).2.2 (by
    norm_num [searchFold, tessAttempts, tesseractConfigs, attemptOfTokens, searchStep,
      engineA, langConfig]
    decide)

/-! ### C7: the returned confidence lies in [0,1] -/

/-- C7: for every image and language set, under the engine interface contract
of spec §6 (token confidences at most 100), the confidence returned by
`extract_text_with_tesseract` lies in [0,1], and it is either the scaled mean
of some configuration's surviving token confidences or one of the fixed
fallback values 0 (capability unavailable), 1/10 (degraded error attempt) or
1/2 (plain-text fallback). -/
theorem C7_confidence_range (eng : OCREngine) (image_data : Bytes) (page_num : Nat)
    (languages : List String)
    (hbound : ∀ c toks, eng.imageToData image_data c (langConfig languages) = some toks →
      ∀ t ∈ toks, t.2 ≤ 100) :
    0 ≤ (extract_text_with_tesseract eng image_data page_num languages).confidence ∧
    (extract_text_with_tesseract eng image_data page_num languages).confidence ≤ 1 ∧
    ((extract_text_with_tesseract eng image_data page_num languages).confidence = 0 ∨
     (extract_text_with_tesseract eng image_data page_num languages).confidence = 1/10 ∨
     (extract_text_with_tesseract eng image_data page_num languages).confidence = 1/2 ∨
     (∃ c toks p, c ∈ tesseractConfigs ∧
        eng.imageToData image_data c (langConfig languages) = some toks ∧
        attemptOfTokens toks = some p ∧
        (extract_text_with_tesseract eng image_data page_num languages).confidence = p.2)) := by
  unfold extract_text_with_tesseract
  rcases hav : eng.available with _ | _
  · simp [unavailableResult]
  · simp only [Bool.true_eq_false, if_false]
    rcases hload : eng.loadImage image_data with e | ⟨w, hh⟩
    · norm_num
    · simp only []
      by_cases hbt : (searchFold (tessAttempts eng image_data languages)).1 = ""
      · rcases hplain : eng.imageToString image_data "--psm 6" (langConfig languages) with _ | t
        · simp only [hbt, if_true, hplain]
          norm_num
        · simp only [hbt, if_true, hplain]
          norm_num
      · simp only [hbt, if_false]
        rcases searchFold_first _ (tessAttempts_pos eng image_data languages) with
          ⟨_, hinit⟩ | ⟨l1, p, l2, hsplit, hbest, _, _⟩
        · exact absurd (congrArg Prod.fst hinit) hbt
        · have hpmem : some p ∈ tessAttempts eng image_data languages := by
            rw [hsplit]
            exact List.mem_append_right _ (List.mem_cons_self _ _)
          rcases List.mem_map.mp hpmem with ⟨c, hc, hcp⟩
          rcases Option.bind_eq_some.mp hcp with ⟨toks, htoks, hatt⟩
          have hle : p.2 ≤ 1 := attemptOfTokens_le_one (hbound c toks htoks) hatt
          have hpos : 0 < p.2 := attemptOfTokens_pos hatt
          rw [hbest]
          refine ⟨le_of_lt hpos, hle, Or.inr (Or.inr (Or.inr ⟨c, toks, p, hc, htoks, hatt, rfl⟩))⟩

/-- Witness for C7 at a concrete engine satisfying the token-confidence
contract. -/
theorem C7_witness :
    0 ≤ (extract_text_with_tesseract engineA [] 1 ["eng"]).confidence ∧
    (extract_text_with_tesseract engineA [] 1 ["eng"]).confidence ≤ 1 ∧
    ((extract_text_with_tesseract engineA [] 1 ["eng"]).confidence = 0 ∨
     (extract_text_with_tesseract engineA [] 1 ["eng"]).confidence = 1/10 ∨
     (extract_text_with_tesseract engineA [] 1 ["eng"]).confidence = 1/2 ∨
     (∃ c toks p, c ∈ tesseractConfigs ∧
        engineA.imageToData [] c (langConfig ["eng"]) = some toks ∧
        attemptOfTokens toks = some p ∧
        (extract_text_with_tesseract engineA [] 1 ["eng"]).confidence = p.2)) :=
  C7_confidence_range engineA [] 1 ["eng"] (by
    intro c toks hsome t ht
    simp only [engineA] at hsome
    rcases Option.some.inj hsome with rfl
    rcases ht with _ | ⟨_, h⟩
    · decide
    · rcases h with _ | ⟨_, h⟩
      · decide
      · cases h)

/-! ### C2: the quality scorer -/

lemma pyStripL_length_le (l : List Char) : (pyStripL l).length ≤ l.length := by
  unfold pyStripL
  calc ((l.dropWhile pyIsSpace).reverse.dropWhile pyIsSpace).reverse.length
      = ((l.dropWhile pyIsSpace).reverse.dropWhile pyIsSpace).length :=
        List.length_reverse _
    _ ≤ (l.dropWhile pyIsSpace).reverse.length :=
        (List.dropWhile_sublist _).length_le
    _ = (l.dropWhile pyIsSpace).length := List.length_reverse _
    _ ≤ l.length := (List.dropWhile_sublist _).length_le

/-- C2: the quality scorer is a pure function of the text (and of the regex
probe count); it returns exactly 0 when the trimmed length is under 5
characters, otherwise the clamp to [0,1] of printable-ratio × 0.3, plus 0.4 if
the alphanumeric ratio is at least 0.4 and the ratio itself otherwise, plus
the length bonus (0.1 over 500 characters, 0.05 over 100), plus 0.2 when at
least 3 of the 4 fixed patterns match, minus 0.1 when the whitespace ratio
exceeds 0.3; and the result always lies in [0,1]. -/
theorem C2_quality_score (pm : Nat) (text : String) :
    (0 ≤ calculate_quality_score_comprehensive pm text ∧
     calculate_quality_score_comprehensive pm text ≤ 1) ∧
    ((pyStripL text.toList).length < 5 →
       calculate_quality_score_comprehensive pm text = 0) ∧
    (5 ≤ (pyStripL text.toList).length →
       calculate_quality_score_comprehensive pm text =
         min 1 (max 0 (
           ((text.toList.countP pyIsPrintable : ℚ) / (text.toList.length : ℚ)) * (3/10)
           + (if ((text.toList.countP pyIsAlnum : ℚ) / (text.toList.length : ℚ)) ≥ 2/5
              then (2/5 : ℚ)
              else (text.toList.countP pyIsAlnum : ℚ) / (text.toList.length : ℚ))
           + (if 500 < text.toList.length then (1/10 : ℚ)
              else if 100 < text.toList.length then (1/20 : ℚ) else 0)
           + (if 3 ≤ pm then (1/5 : ℚ) else 0)
           - (if (3/10 : ℚ) < ((text.toList.countP pyIsSpace : ℚ) / (text.toList.length : ℚ))
              then (1/10 : ℚ) else 0)))) := by
  simp only [calculate_quality_score_comprehensive]
  by_cases h0 : text.toList = [] ∨ (pyStripL text.toList).length < 5
  · rw [if_pos h0]
    refine ⟨⟨le_refl 0, by norm_num⟩, fun _ => rfl, fun h5 => ?_⟩
    exfalso
    rcases h0 with he | hl
    · rw [he] at h5
      simp [pyStripL] at h5
    · omega
  · rw [if_neg h0]
    push_neg at h0
    obtain ⟨hne, h5⟩ := h0
    have hlen0 : ¬ text.toList.length = 0 := by
      intro h
      exact hne (List.length_eq_zero.mp h)
    rw [if_neg hlen0]
    refine ⟨⟨le_min (by norm_num) (le_max_left 0 _), min_le_left _ _⟩,
            fun hlt => absurd hlt (not_lt.mpr h5), fun _ => ?_⟩
    norm_num

/-- Witness for C2: a trimmed length under 5 scores exactly 0. -/
theorem C2_witness : calculate_quality_score_comprehensive 0 "hi" = 0 :=
  (C2_quality_score 0 "hi").2.1 (by decide)

/-! ### C5: the language detector -/

/-- C5: the language detector never returns an empty list, and on any text in
which no function word of any supported language occurs (every Python
`count` is zero on the lowercased text) it returns exactly `["unknown"]`. -/
lemma if_nil_unknown (L : List String) : (if L = [] then ["unknown"] else L) ≠ [] := by
  split
  · simp
  · next h => exact h

theorem C5_language_detector (text : String) :
    detect_languages_comprehensive text ≠ [] ∧
    ((∀ w ∈ english_words ++ hindi_words ++ spanish_words,
        countOcc w.toList (pyLower text).toList = 0) →
      detect_languages_comprehensive text = ["unknown"]) := by
  constructor
  · simp only [detect_languages_comprehensive]
    exact if_nil_unknown _
  · intro hw
    have hzero : ∀ ws : List String, (∀ w ∈ ws, w ∈ english_words ++ hindi_words ++ spanish_words) →
        countWordList ws (pyLower text).toList = 0 := by
      intro ws hsub
      unfold countWordList
      apply List.sum_eq_zero
      intro x hx
      rcases List.mem_map.mp hx with ⟨w, hwmem, rfl⟩
      exact hw w (hsub w hwmem)
    have he : countWordList english_words (pyLower text).toList = 0 :=
      hzero _ (fun w hwm => List.mem_append_left _ (List.mem_append_left _ hwm))
    have hh : countWordList hindi_words (pyLower text).toList = 0 :=
      hzero _ (fun w hwm => List.mem_append_left _ (List.mem_append_right _ hwm))
    have hs : countWordList spanish_words (pyLower text).toList = 0 :=
      hzero _ (fun w hwm => List.mem_append_right _ hwm)
    simp only [detect_languages_comprehensive]
    rw [he, hh, hs]
    norm_num

/-- Witness for C5: a text with no recognisable function words yields exactly
`["unknown"]`. -/
theorem C5_witness : detect_languages_comprehensive "qqq" = ["unknown"] :=
  (C5_language_detector "qqq").2 (by decide)

/-! ### C4: page-count preservation under per-page decomposition errors -/

lemma extract_T_len (parsed : List (Except String ParsedPage)) :
    ∀ i, ((extract_text_from_pdf_T i parsed).2).length = parsed.length := by
  induction parsed with
  | nil => intro i; rfl
  | cons p rest ih =>
    intro i
    simp only [extract_text_from_pdf_T, List.length_cons]
    rw [ih (i + 1)]

lemma extract_T_get (parsed : List (Except String ParsedPage)) :
    ∀ i j e, parsed.get? j = some (Except.error e) →
      ((extract_text_from_pdf_T i parsed).2).get? j =
        some { page_num := i + j + 1, blocks := [], images := [], width := 0, height := 0,
               error := some e } := by
  induction parsed with
  | nil => intro i j e h; simp at h
  | cons p rest ih =>
    intro i j e h
    cases j with
    | zero =>
      simp only [List.get?] at h
      rcases Option.some.inj h with rfl
      simp [extract_text_from_pdf_T]
    | succ j' =>
      simp only [List.get?] at h
      have := ih (i + 1) j' e h
      simp only [extract_text_from_pdf_T, List.get?]
      rw [this]
      congr 2
      omega

/-- C4: decomposition yields exactly one page entry per source page — a page
whose decomposition raises is replaced by an empty, error-marked entry at its
position — and whenever `process_pdf_comprehensive` returns a result, its
reported page count equals the number of pages in the source document. -/
theorem C4_page_count (parsed : List (Except String ParsedPage)) (env : ExtractEnv)
    (extract_tables extract_images : Bool) (confidence_threshold : ℚ)
    (languages : List String) (preserve_layout : Bool) (r : PDFResult) :
    (extract_text_from_pdf_comprehensive parsed).length = parsed.length ∧
    (∀ j e, parsed.get? j = some (Except.error e) →
       (extract_text_from_pdf_comprehensive parsed).get? j =
         some { page_num := j + 1, blocks := [], images := [], width := 0, height := 0,
                error := some e }) ∧
    (process_pdf_comprehensive env parsed extract_tables extract_images
        confidence_threshold languages preserve_layout = Except.ok r →
      r.pages = parsed.length) := by
  refine ⟨extract_T_len parsed 0, ?_, ?_⟩
  · intro j e h
    have := extract_T_get parsed 0 j e h
    simpa [extract_text_from_pdf_comprehensive] using this
  · intro hok
    unfold process_pdf_comprehensive process_pdf_T at hok
    by_cases hlen : ((extract_text_from_pdf_T 0 parsed).2).length > MAX_PAGES_PER_REQUEST
    · rw [if_pos hlen] at hok
      simp at hok
    · rw [if_neg hlen] at hok
      have := (Except.ok.inj hok).symm
      rw [this]
      exact extract_T_len parsed 0

/-- Witness for C4: a document whose single page fails to decompose still
reports one page, holding the error-marked empty entry. -/
theorem C4_witness :
    (extract_text_from_pdf_comprehensive [Except.error "boom"]).get? 0 =
      some { page_num := 1, blocks := [], images := [], width := 0, height := 0,
             error := some "boom" } :=
  (C4_page_count [Except.error "boom"] envA true true (7/10) ["eng"] true
    { text := "", chunks := [], pages := 0, quality_score := 0, word_count := 0,
      character_count := 0, has_tables := false, has_images := false,
      language := "unknown", extracted_languages := [] }).2.1 0 "boom" rfl

/-! ### C9: runs differ only in the processing-time field -/

lemma scrub_mkResponse (result : Except PipeErr PDFResult) (warnings : List String)
    (file_hash : String) (d d' : ℚ) :
    scrubProcessingTime (mkResponse result warnings file_hash d) =
    scrubProcessingTime (mkResponse result warnings file_hash d') := by
  cases result with
  | ok r => rfl
  | error e =>
    cases e with
    | http c det => rfl
    | exn m => rfl

/-- C9: the endpoint is a pure function of the input bytes, declared media
type, options, language set and engine state; the two clock readings flow
only into the `processing_time` field, so two runs on identical input agree
on every other field of the Document Result. -/
theorem C9_idempotence (env : ExtractEnv) (file_data : Bytes) (content_type : String)
    (extract_tables extract_images : Bool) (confidence_threshold : ℚ)
    (languages : String) (preserve_layout : Bool) (t1 t2 t1' t2' : ℚ) :
    scrubProcessingTime (extract_text env file_data content_type extract_tables
      extract_images confidence_threshold languages preserve_layout t1 t2) =
    scrubProcessingTime (extract_text env file_data content_type extract_tables
      extract_images confidence_threshold languages preserve_layout t1' t2') := by
  unfold extract_text
  by_cases h1 : file_data = []
  · rw [if_pos h1, if_pos h1]
  · rw [if_neg h1, if_neg h1]
    by_cases h2 : file_data.length > MAX_FILE_SIZE
    · rw [if_pos h2, if_pos h2]
    · rw [if_neg h2, if_neg h2]
      exact scrub_mkResponse _ _ _ _ _

/-! ### Refinement of the chunk accumulation (for C3, C6, C10) -/

lemma foldLine_chunks (preserve_layout : Bool) (page_num : Nat) (lines : List Line) :
    ∀ acc : String × List TextChunk,
      (lines.foldl (foldLine preserve_layout page_num) acc).2 =
        acc.2 ++ lines.filterMap (lineChunk? page_num) := by
  induction lines with
  | nil => intro acc; simp
  | cons ln rest ih =>
    intro acc
    simp only [List.foldl_cons, List.filterMap_cons]
    by_cases hs : pyStrip (lineText ln) = ""
    · have hf : foldLine preserve_layout page_num acc ln = acc := by
        simp only [foldLine]
        rw [if_neg (by simpa using hs)]
      have hc : lineChunk? page_num ln = none := by
        simp only [lineChunk?]
        rw [if_neg (by simpa using hs)]
      rw [hf, hc, ih acc]
    · have hf : foldLine preserve_layout page_num acc ln =
          (acc.1 ++ lineText ln ++ (if preserve_layout then "\n" else " "),
           acc.2 ++ [{ text := pyStrip (lineText ln), confidence := 0.95, page := page_num,
                       bbox := ln.bbox, chunk_type := "text", language := none }]) := by
        simp only [foldLine]
        rw [if_pos (by simpa using hs)]
      have hc : lineChunk? page_num ln =
          some { text := pyStrip (lineText ln), confidence := 0.95, page := page_num,
                 bbox := ln.bbox, chunk_type := "text", language := none } := by
        simp only [lineChunk?]
        rw [if_pos (by simpa using hs)]
      rw [hf, hc, ih _]
      simp

lemma foldBlock_chunks (preserve_layout : Bool) (page_num : Nat) (blocks : List Block) :
    ∀ acc : String × List TextChunk,
      (blocks.foldl (foldBlock preserve_layout page_num) acc).2 =
        acc.2 ++ (blocks.map
          (fun b => (b.lines.getD []).filterMap (lineChunk? page_num))).flatten := by
  induction blocks with
  | nil => intro acc; simp
  | cons b rest ih =>
    intro acc
    simp only [List.foldl_cons, List.map_cons, List.flatten_cons]
    rcases hb : b.lines with _ | ls
    · have hf : foldBlock preserve_layout page_num acc b = acc := by
        simp [foldBlock, hb]
      rw [hf, ih acc]
      simp
    · have hf : foldBlock preserve_layout page_num acc b =
          ls.foldl (foldLine preserve_layout page_num) acc := by
        simp [foldBlock, hb]
      rw [hf, ih _, foldLine_chunks]
      simp [List.append_assoc]

lemma foldImage_chunks (eng : OCREngine) (languages : List String) (preserve_layout : Bool)
    (page_num : Nat) (imgs : List RawImage) :
    ∀ st : ImgState,
      (imgs.foldl (foldImage eng languages preserve_layout page_num) st).chunks =
        st.chunks ++ imgs.filterMap (imageChunk? eng languages page_num) := by
  induction imgs with
  | nil => intro st; simp
  | cons img rest ih =>
    intro st
    simp only [List.foldl_cons, List.filterMap_cons]
    by_cases hs : pyStrip (extract_text_with_tesseract eng img.data page_num languages).text = ""
    · have hf : (foldImage eng languages preserve_layout page_num st img).chunks = st.chunks := by
        simp only [foldImage]
        rw [if_neg (by simpa using hs)]
      have hc : imageChunk? eng languages page_num img = none := by
        simp only [imageChunk?]
        rw [if_neg (by simpa using hs)]
      rw [ih _, hf, hc]
    · have hf : (foldImage eng languages preserve_layout page_num st img).chunks =
          st.chunks ++
            [{ text := (extract_text_with_tesseract eng img.data page_num languages).text,
               confidence := (extract_text_with_tesseract eng img.data page_num languages).confidence,
               page := page_num,
               bbox := (extract_text_with_tesseract eng img.data page_num languages).bbox,
               chunk_type := (extract_text_with_tesseract eng img.data page_num languages).chunk_type,
               language := some (extract_text_with_tesseract eng img.data page_num languages).language }] := by
        simp only [foldImage]
        rw [if_pos (by simpa using hs)]
      have hc : imageChunk? eng languages page_num img =
          some { text := (extract_text_with_tesseract eng img.data page_num languages).text,
                 confidence := (extract_text_with_tesseract eng img.data page_num languages).confidence,
                 page := page_num,
                 bbox := (extract_text_with_tesseract eng img.data page_num languages).bbox,
                 chunk_type := (extract_text_with_tesseract eng img.data page_num languages).chunk_type,
                 language := some (extract_text_with_tesseract eng img.data page_num languages).language } := by
        simp only [imageChunk?]
        rw [if_pos (by simpa using hs)]
      rw [ih _, hf, hc]
      simp

lemma processPage_chunks (eng : OCREngine) (extract_images : Bool) (languages : List String)
    (preserve_layout : Bool) (st : DocState × List Ev) (pd : PageData) :
    (processPage eng extract_images languages preserve_layout st pd).1.all_chunks =
      st.1.all_chunks ++ pageChunksSpec eng extract_images languages pd := by
  rcases he : pd.error with _ | e
  · simp only [processPage, pageChunksSpec, he]
    by_cases hdo : (extract_images && !pd.images.isEmpty) = true
    · rw [if_pos hdo, if_pos hdo]
      rw [foldImage_chunks]
      rw [foldBlock_chunks]
      simp [List.append_assoc]
    · rw [if_neg hdo, if_neg hdo]
      rw [foldBlock_chunks]
      simp
  · simp only [processPage, pageChunksSpec, he]
    simp

lemma docFold_chunks (eng : OCREngine) (extract_images : Bool) (languages : List String)
    (preserve_layout : Bool) (pages : List PageData) :
    ∀ st : DocState × List Ev,
      (pages.foldl (processPage eng extract_images languages preserve_layout) st).1.all_chunks =
        st.1.all_chunks ++
          (pages.map (pageChunksSpec eng extract_images languages)).flatten := by
  induction pages with
  | nil => intro st; simp
  | cons pd rest ih =>
    intro st
    simp only [List.foldl_cons, List.map_cons, List.flatten_cons]
    rw [ih _, processPage_chunks]
    simp [List.append_assoc]

/-! ### C3: chunk order within pages -/

/-- C3 (amended): whenever PDF processing returns a result, its chunk
sequence is exactly, page by page in decomposition order: one `text` chunk of
confidence 0.95 per native block line whose stripped text is non-empty (in
block/line order), followed — when image extraction is requested and the page
has images — by one chunk per embedded image whose OCR text strips non-empty
(in image-index order), carrying the winning OCR attempt's text, confidence
and chunk type; error-marked pages contribute no chunks. -/
theorem C3_chunk_order (env : ExtractEnv) (parsed : List (Except String ParsedPage))
    (extract_tables extract_images : Bool) (confidence_threshold : ℚ)
    (languages : List String) (preserve_layout : Bool) (r : PDFResult)
    (hok : process_pdf_comprehensive env parsed extract_tables extract_images
      confidence_threshold languages preserve_layout = Except.ok r) :
    r.chunks = ((extract_text_from_pdf_comprehensive parsed).map
      (pageChunksSpec env.engine extract_images languages)).flatten := by
  unfold process_pdf_comprehensive process_pdf_T at hok
  by_cases hlen : ((extract_text_from_pdf_T 0 parsed).2).length > MAX_PAGES_PER_REQUEST
  · rw [if_pos hlen] at hok
    simp at hok
  · rw [if_neg hlen] at hok
    have hr := (Except.ok.inj hok).symm
    rw [hr]
    simpa [extract_text_from_pdf_comprehensive] using
      docFold_chunks env.engine extract_images languages preserve_layout
        (extract_text_from_pdf_T 0 parsed).2
        ({ all_text := "", all_chunks := [], has_images := false,
           extracted_languages := [] }, (extract_text_from_pdf_T 0 parsed).1)

/-- Counterexample to C3 as stated: a page whose single native line is a lone
whitespace span produces zero chunks, not one chunk per line. -/
theorem C3_counterexample :
    ((process_pdf_comprehensive envA parsedWsLine true true (7/10) ["eng"] true).toOption.map
       (fun r => r.chunks.length)) = some 0 ∧
    ((extract_text_from_pdf_comprehensive parsedWsLine).map
       (fun pd => (pd.blocks.map (fun b => (b.lines.getD []).length)).sum)) = [1] := by
  constructor
  · decide
  · decide

/-- Witness for C3: on a document with one real text line, processing
succeeds and the chunk sequence matches the per-page description. -/
theorem C3_witness :
    ∃ r, process_pdf_comprehensive envA parsedHello true true (7/10) ["eng"] true =
        Except.ok r ∧
      r.chunks = ((extract_text_from_pdf_comprehensive parsedHello).map
        (pageChunksSpec envA.engine true ["eng"])).flatten :=
  ⟨_, rfl, C3_chunk_order envA parsedHello true true (7/10) ["eng"] true _ rfl⟩

/-! ### C8: the page-count ceiling -/

instance exceptDecEq {ε α : Type} [DecidableEq ε] [DecidableEq α] :
    DecidableEq (Except ε α)
  | Except.ok a, Except.ok b =>
    if h : a = b then isTrue (by rw [h]) else isFalse (fun hh => h (Except.ok.inj hh))
  | Except.ok _, Except.error _ => isFalse (fun hh => Except.noConfusion hh)
  | Except.error _, Except.ok _ => isFalse (fun hh => Except.noConfusion hh)
  | Except.error e, Except.error f =>
    if h : e = f then isTrue (by rw [h]) else isFalse (fun hh => h (Except.error.inj hh))

lemma extract_T_trace_len (parsed : List (Except String ParsedPage)) :
    ∀ i, (extract_text_from_pdf_T i parsed).1.length = parsed.length := by
  induction parsed with
  | nil => intro i; rfl
  | cons p rest ih =>
    intro i
    simp only [extract_text_from_pdf_T, List.length_cons]
    rw [ih (i + 1)]

lemma extract_T_trace_decomp (parsed : List (Except String ParsedPage)) :
    ∀ i, ∀ e ∈ (extract_text_from_pdf_T i parsed).1, ∃ j, e = Ev.decomp j := by
  induction parsed with
  | nil => intro i e he; simp [extract_text_from_pdf_T] at he
  | cons p rest ih =>
    intro i e he
    simp only [extract_text_from_pdf_T, List.mem_cons] at he
    rcases he with rfl | he
    · exact ⟨i, rfl⟩
    · exact ih (i + 1) e he

/-- C8 (amended): a document whose page count exceeds the maximum (100) is
rejected with HTTP 413 — but only after per-page decomposition has run: the
work trace of such a request is exactly the one decomposition event per source
page, and contains no OCR or chunk-assembly events. -/
theorem C8_page_ceiling (env : ExtractEnv) (parsed : List (Except String ParsedPage))
    (extract_tables extract_images : Bool) (confidence_threshold : ℚ)
    (languages : List String) (preserve_layout : Bool)
    (hover : parsed.length > MAX_PAGES_PER_REQUEST) :
    (process_pdf_T env parsed extract_tables extract_images confidence_threshold
       languages preserve_layout).2 =
      Except.error (PipeErr.http 413 "Too many pages (max 100)") ∧
    (process_pdf_T env parsed extract_tables extract_images confidence_threshold
       languages preserve_layout).1 = (extract_text_from_pdf_T 0 parsed).1 ∧
    (∀ e ∈ (process_pdf_T env parsed extract_tables extract_images confidence_threshold
       languages preserve_layout).1, ∃ j, e = Ev.decomp j) ∧
    (process_pdf_T env parsed extract_tables extract_images confidence_threshold
       languages preserve_layout).1.length = parsed.length := by
  have hlen : ((extract_text_from_pdf_T 0 parsed).2).length > MAX_PAGES_PER_REQUEST := by
    rw [extract_T_len]
    exact hover
  simp only [process_pdf_T]
  rw [if_pos hlen]
  exact ⟨rfl, rfl, extract_T_trace_decomp parsed 0, extract_T_trace_len parsed 0⟩

/-- Counterexample to C8 as stated: a 101-page document is rejected with 413,
yet its work trace holds 101 per-page decomposition events — decomposition is
not skipped. -/
theorem C8_counterexample :
    (process_pdf_T envA parsed101 true true (7/10) ["eng"] true).2 =
      Except.error (PipeErr.http 413 "Too many pages (max 100)") ∧
    Ev.decomp 0 ∈ (process_pdf_T envA parsed101 true true (7/10) ["eng"] true).1 ∧
    (process_pdf_T envA parsed101 true true (7/10) ["eng"] true).1.length = 101 := by
  refine ⟨?_, ?_, ?_⟩
  · decide
  · decide
  · decide

/-- Witness for C8: the amended rejection behaviour at the concrete 101-page
document. -/
theorem C8_witness :
    (process_pdf_T envA parsed101 true true (7/10) ["eng"] true).2 =
      Except.error (PipeErr.http 413 "Too many pages (max 100)") ∧
    (∀ e ∈ (process_pdf_T envA parsed101 true true (7/10) ["eng"] true).1,
       ∃ j, e = Ev.decomp j) :=
  ⟨(C8_page_ceiling envA parsed101 true true (7/10) ["eng"] true (by decide)).1,
   (C8_page_ceiling envA parsed101 true true (7/10) ["eng"] true (by decide)).2.2.1⟩

/-! ### C10: OCR chunk bounding boxes -/

/-- C10 (amended): a successful OCR result (`ocr_text`) carries the bounding
box `[0, 0, w, h]` of the loaded image's own pixel dimensions; the
`ocr_unavailable` and `ocr_error` placeholders carry the fixed box
`[0, 0, 100, 100]`; and in all cases the page-coordinate bounding box recorded
for the image during decomposition never influences the emitted chunk. -/
theorem C10_bbox (eng : OCREngine) (image_data : Bytes) (page_num : Nat)
    (languages : List String) :
    ((extract_text_with_tesseract eng image_data page_num languages).chunk_type = "ocr_text" →
       ∃ w h, eng.loadImage image_data = Except.ok (w, h) ∧
         (extract_text_with_tesseract eng image_data page_num languages).bbox =
           [0, 0, (w : ℚ), (h : ℚ)]) ∧
    (((extract_text_with_tesseract eng image_data page_num languages).chunk_type =
        "ocr_unavailable" ∨
      (extract_text_with_tesseract eng image_data page_num languages).chunk_type =
        "ocr_error") →
       (extract_text_with_tesseract eng image_data page_num languages).bbox =
         [0, 0, 100, 100]) ∧
    (∀ (img : RawImage) (b1 b2 : List ℚ),
       imageChunk? eng languages page_num { img with bbox := b1 } =
       imageChunk? eng languages page_num { img with bbox := b2 }) := by
  refine ⟨?_, ?_, fun img b1 b2 => rfl⟩ <;>
  · intro htype
    unfold extract_text_with_tesseract at htype ⊢
    rcases hav : eng.available with _ | _
    · rw [hav] at htype
      rw [if_pos rfl] at htype ⊢
      all_goals first
      | exact absurd htype (of_decide_eq_false rfl)
      | rfl
    · rw [hav] at htype
      rw [if_neg (by simp)] at htype ⊢
      rcases hload : eng.loadImage image_data with e | wh
      · rw [hload] at htype
        all_goals exact absurd htype (of_decide_eq_false rfl)
      · rcases wh with ⟨w, hh⟩
        rw [hload] at htype
        all_goals first
        | exact ⟨w, hh, rfl, rfl⟩
        | exact absurd htype (of_decide_eq_false rfl)

/-- Counterexample to C10 as stated: with the recognition capability
unavailable, the chunk emitted for a 50×60 image carries the fixed box
`[0, 0, 100, 100]`, not `[0, 0, 50, 60]`. -/
theorem C10_counterexample :
    (List.filterMap (imageChunk? engineU ["eng"] 1) [img5060]).map (fun c => c.bbox) =
      [[0, 0, 100, 100]] ∧
    img5060.width = 50 ∧ img5060.height = 60 ∧
    ¬ ([0, 0, (100 : ℚ), 100] = [0, 0, (50 : ℚ), (60 : ℚ)]) := by
  refine ⟨?_, rfl, rfl, ?_⟩
  · decide
  · decide

/-- Witness for C10: the unavailable-capability placeholder chunk carries the
fixed box. -/
theorem C10_witness :
    (extract_text_with_tesseract engineU [1] 1 ["eng"]).bbox = [0, 0, 100, 100] :=
  (C10_bbox engineU [1] 1 ["eng"]).2.1 (Or.inl rfl)

/-! ### C6: behaviour when the recognition capability is unavailable -/

/-- C6: when the OCR capability is unavailable, every OCR call returns the
same deterministic placeholder (confidence 0, chunk type `ocr_unavailable`),
and a PDF whose single page holds one image and no text yields a successful
response whose chunk list is exactly that one placeholder chunk, with
`has_images = true` and a document-level warning. -/
theorem C6_unavailable (env : ExtractEnv) (file_data : Bytes) (content_type : String)
    (img : RawImage) (w h : ℚ) (extract_tables : Bool) (confidence_threshold : ℚ)
    (languages : String) (preserve_layout : Bool) (t1 t2 : ℚ)
    (hav : env.engine.available = false)
    (hparse : env.parsePdf file_data =
      Except.ok [Except.ok { blocks := [], images := [img], width := w, height := h }])
    (hne : file_data ≠ [])
    (hsize : file_data.length ≤ MAX_FILE_SIZE)
    (hct : containsSub "pdf".toList (pyLower content_type).toList = true) :
    (∀ (b : Bytes) (pn : Nat) (ls : List String),
        extract_text_with_tesseract env.engine b pn ls = unavailableResult pn) ∧
    (∃ r, extract_text env file_data content_type extract_tables true confidence_threshold
        languages preserve_layout t1 t2 = Except.ok r ∧
      r.success = true ∧ r.has_images = true ∧
      r.warnings = ["Tesseract OCR not available: " ++ env.tessMsg] ∧
      r.chunks = [{ text := "[Tesseract OCR not available - install Tesseract OCR engine]",
                    confidence := 0, page := 1, bbox := [0, 0, 100, 100],
                    chunk_type := "ocr_unavailable", language := some "unknown" }]) := by
  have hocr : ∀ (b : Bytes) (pn : Nat) (ls : List String),
      extract_text_with_tesseract env.engine b pn ls = unavailableResult pn := by
    intro b pn ls
    unfold extract_text_with_tesseract
    rw [hav]
    rw [if_pos rfl]
  refine ⟨hocr, ?_⟩
  have himgchunk : ∀ ls : List String, imageChunk? env.engine ls 1 img =
      some { text := "[Tesseract OCR not available - install Tesseract OCR engine]",
             confidence := 0, page := 1, bbox := [0, 0, 100, 100],
             chunk_type := "ocr_unavailable", language := some "unknown" } := by
    intro ls
    unfold imageChunk?
    rw [hocr img.data 1 ls]
    rw [if_pos (by decide)]
    rfl
  have hspec : ∀ ls : List String, pageChunksSpec env.engine true ls
      { page_num := 1, blocks := [], images := [img], width := w, height := h,
        error := none } =
      [{ text := "[Tesseract OCR not available - install Tesseract OCR engine]",
         confidence := 0, page := 1, bbox := [0, 0, 100, 100],
         chunk_type := "ocr_unavailable", language := some "unknown" }] := by
    intro ls
    simp only [pageChunksSpec, List.map_nil, List.flatten_nil, List.nil_append]
    rw [if_pos (show (true && !([img].isEmpty)) = true from rfl)]
    simp only [List.filterMap_cons, List.filterMap_nil]
    rw [himgchunk ls]
  have hprocess : ∀ (et : Bool) (ctr : ℚ) (ls : List String) (pl : Bool),
      ∃ res, process_pdf_comprehensive env
          [Except.ok { blocks := [], images := [img], width := w, height := h }]
          et true ctr ls pl = Except.ok res ∧
        res.chunks =
          [{ text := "[Tesseract OCR not available - install Tesseract OCR engine]",
             confidence := 0, page := 1, bbox := [0, 0, 100, 100],
             chunk_type := "ocr_unavailable", language := some "unknown" }] ∧
        res.has_images = true := by
    intro et ctr ls pl
    unfold process_pdf_comprehensive process_pdf_T
    rw [if_neg (by rw [extract_T_len]; simp [MAX_PAGES_PER_REQUEST])]
    refine ⟨_, rfl, ?_, ?_⟩
    · show (((extract_text_from_pdf_T 0 _).2).foldl
        (processPage env.engine true ls pl) _).1.all_chunks = _
      rw [docFold_chunks]
      simp only [extract_text_from_pdf_T, List.map_cons, List.map_nil,
        List.flatten_cons, List.flatten_nil, List.nil_append, List.append_nil]
      exact hspec ls
    · rfl
  obtain ⟨res, hok, hchunks, hhi⟩ := hprocess extract_tables confidence_threshold
    (if ((languages.splitOn ",").map pyStrip).filter (fun s => s ≠ "") = [] then ["eng"]
     else ((languages.splitOn ",").map pyStrip).filter (fun s => s ≠ "")) preserve_layout
  have hfull : process_pdf_full env file_data extract_tables true confidence_threshold
      (if ((languages.splitOn ",").map pyStrip).filter (fun s => s ≠ "") = [] then ["eng"]
       else ((languages.splitOn ",").map pyStrip).filter (fun s => s ≠ "")) preserve_layout =
      Except.ok res := by
    unfold process_pdf_full
    rw [hparse]
    exact hok
  simp only [extract_text]
  rw [if_neg hne, if_neg (not_lt.mpr hsize)]
  rw [if_pos hct]
  rw [hfull]
  refine ⟨_, rfl, rfl, ?_, ?_, ?_⟩
  · exact hhi
  · simp [tessAvailable, hav]
  · exact hchunks

/-- Witness for C6 at the concrete unavailable-engine environment and its
one-image document. -/
theorem C6_witness :
    ∃ r, extract_text envU [1] "application/pdf" true true (7/10) "eng" true 0 0 =
        Except.ok r ∧
      r.success = true ∧ r.has_images = true ∧
      r.warnings = ["Tesseract OCR not available: " ++ envU.tessMsg] ∧
      r.chunks = [{ text := "[Tesseract OCR not available - install Tesseract OCR engine]",
                    confidence := 0, page := 1, bbox := [0, 0, 100, 100],
                    chunk_type := "ocr_unavailable", language := some "unknown" }] :=
  (C6_unavailable envU [1] "application/pdf" img5060 100 200 true (7/10) "eng" true 0 0
    rfl rfl (by decide) (by decide) (by decide)).2

end ComprehensiveOCR
